import Mathlib

/-!
Verification development for the render-service repository (src/server.js).

The JavaScript source is shallowly embedded: JSON payload fields become
`Option`-typed record fields (`none` models an absent / `undefined` field),
JS `||` / `??` coercions become explicit helper functions, asynchronous
fetch + decode operations become explicit oracles `String → Option α`
(respectively `String → Except ε α`), and the stateful job task becomes a
pure function from an environment and the in-flight table to its registry
writes and the resulting table.
-/

set_option maxHeartbeats 1000000

namespace RenderService

/-- JS `x || d` for an optional number: `undefined` and `0` are falsy. -/
def jsNumOr (v : Option Int) (d : Int) : Int :=
  match v with
  | none => d
  | some n => if n = 0 then d else n

/-- JS `x || d` for an optional string: `undefined` and `""` are falsy. -/
def jsStrOr (v : Option String) (d : String) : String :=
  match v with
  | none => d
  | some s => if s = "" then d else s

/-- JS `x ? String(x) : undefined` for an optional string field. -/
def jsTruthyStr (v : Option String) : Option String :=
  match v with
  | none => none
  | some s => if s = "" then none else some s

deriving instance DecidableEq for Except

/-- A draw rectangle as it appears in a payload: every field optional. -/
structure Rect where
  x : Option Int
  y : Option Int
  w : Option Int
  h : Option Int
deriving DecidableEq, Repr

/-- One frame of a `pet_gif_frames` layer.  `extra` models JSON fields the
service does not know about. -/
structure Frame where
  url : Option String
  draw : Option Rect
  extra : List (String × String) := []
deriving DecidableEq, Repr

/-- An input layer.  `extra` models JSON fields unknown to the service. -/
structure Layer where
  type : Option String
  key : Option String
  url : Option String
  draw : Option Rect
  frames : Option (List Frame)
  extra : List (String × String) := []
deriving DecidableEq, Repr

/-- The `size` object of a payload. -/
structure Size where
  width : Option Int
  height : Option Int
deriving DecidableEq, Repr

/-- The `gifOptions` object of a payload (`repeat` is called `repeatCount`
here because `repeat` is a Lean tactic keyword). -/
structure GifOptions where
  delayMs : Option Int
  repeatCount : Option Int
  quality : Option Int
  transparent : Option Bool
  transparentColorHex : Option String
  backgroundColorHex : Option String
deriving DecidableEq, Repr

/-- A job payload (the JSON body of `POST /jobs`).  `extra` models
top-level JSON fields unknown to the service (`guild`, `user` and
`backgroundColorHex` are known to the service but ignored by the
fingerprint normalization). -/
structure Payload where
  guild : Option String
  user : Option String
  size : Option Size
  format : Option String
  layers : Option (List Layer)
  gifOptions : Option GifOptions
  backgroundColorHex : Option String
  extra : List (String × String) := []
deriving DecidableEq, Repr

/-! ### Fingerprint normalization (`stableHashPayload`, src/server.js:335-372) -/

/-- A fully-coerced draw rectangle as built by `stableHashPayload`. -/
structure NormRect where
  x : Int
  y : Int
  w : Int
  h : Int
deriving DecidableEq, Repr

/-- The normalized `size` record (`{w, h}`). -/
structure NormSize where
  w : Int
  h : Int
deriving DecidableEq, Repr

/-- A normalized frame entry of the fingerprint record. -/
structure NormFrame where
  url : String
  draw : NormRect
deriving DecidableEq, Repr

/-- A normalized layer of the fingerprint record.  `url = none` and
`frames = none` model fields that `stableHashPayload` leaves `undefined`
(dropped by `JSON.stringify`). -/
structure NormLayer where
  type : String
  key : String
  url : Option String
  draw : NormRect
  frames : Option (List NormFrame)
deriving DecidableEq, Repr

/-- The normalized `gifOptions` record. -/
structure NormGifOptions where
  delayMs : Int
  repeatCount : Int
  quality : Int
  transparent : Bool
  transparentColorHex : String
  backgroundColorHex : String
deriving DecidableEq, Repr

/-- The full normalized record that `stableHashPayload` serializes and
hashes: only size, layers, format and gifOptions. -/
structure NormPayload where
  size : NormSize
  layers : List NormLayer
  format : String
  gifOptions : Option NormGifOptions
deriving DecidableEq, Repr

/-- Per-frame normalization inside `stableHashPayload`: the frame rectangle
inherits missing fields from the layer rectangle (src/server.js:350-358). -/
def normalizeFrame (base : NormRect) (fr : Frame) : NormFrame :=
  { url := fr.url.getD ""
    draw :=
      { x := jsNumOr (fr.draw.bind Rect.x) base.x
        y := jsNumOr (fr.draw.bind Rect.y) base.y
        w := jsNumOr (fr.draw.bind Rect.w) base.w
        h := jsNumOr (fr.draw.bind Rect.h) base.h } }

/-- Per-layer normalization inside `stableHashPayload`
(src/server.js:337-361): rectangle fields default to 0 resp. the canvas
size, and a `frames` list is kept only for `pet_gif_frames` layers. -/
def normalizeLayer (size : NormSize) (l : Layer) : NormLayer :=
  let draw : NormRect :=
    { x := jsNumOr (l.draw.bind Rect.x) 0
      y := jsNumOr (l.draw.bind Rect.y) 0
      w := jsNumOr (l.draw.bind Rect.w) size.w
      h := jsNumOr (l.draw.bind Rect.h) size.h }
  { type := l.type.getD ""
    key := l.key.getD ""
    url := jsTruthyStr l.url
    draw := draw
    frames :=
      if l.type = some "pet_gif_frames" ∧ l.frames ≠ none then
        some ((l.frames.getD []).map (normalizeFrame draw))
      else none }

/-- Normalization of `gifOptions` inside `stableHashPayload`
(src/server.js:362-369). -/
def normalizeGifOptions (g : Option GifOptions) : Option NormGifOptions :=
  g.map fun go =>
    { delayMs := jsNumOr go.delayMs 0
      repeatCount := go.repeatCount.getD 0
      quality := jsNumOr go.quality 0
      transparent := go.transparent.getD false
      transparentColorHex := go.transparentColorHex.getD ""
      backgroundColorHex := go.backgroundColorHex.getD "" }

/-- The normalized record serialized by `stableHashPayload`
(src/server.js:335-370): `{size, layers, format: payload.format || 'png',
gifOptions}`.  `guild`, `user`, `backgroundColorHex` and unknown fields are
never read. -/
def normalizePayload (p : Payload) : NormPayload :=
  let size : NormSize :=
    { w := jsNumOr (p.size.bind Size.width) 300
      h := jsNumOr (p.size.bind Size.height) 300 }
  { size := size
    layers := (p.layers.getD []).map (normalizeLayer size)
    format := jsStrOr p.format "png"
    gifOptions := normalizeGifOptions p.gifOptions }

/-- `stableHashPayload` (src/server.js:335-372).  The composition
`sha1hex ∘ JSON.stringify` applied to the normalized record is a fixed
deterministic function of that record; it is abstracted as the parameter
`hash`, so every theorem below holds for the real digest function. -/
def stableHashPayload (hash : NormPayload → String) (p : Payload) : String :=
  hash (normalizePayload p)

/-! ### Known-field equality (equality up to identity and unknown fields) -/

/-- Two frames that agree on every field the normalization reads. -/
def frameKnownEqb (a b : Frame) : Bool :=
  decide (a.url = b.url) && decide (a.draw = b.draw)

/-- Pointwise `frameKnownEqb` on frame lists. -/
def frameListKnownEqb : List Frame → List Frame → Bool
  | [], [] => true
  | a :: as, b :: bs => frameKnownEqb a b && frameListKnownEqb as bs
  | _, _ => false

/-- Two layers that agree on every field the normalization reads (their
`extra` fields may differ arbitrarily). -/
def layerKnownEqb (l m : Layer) : Bool :=
  decide (l.type = m.type) && decide (l.key = m.key) &&
  decide (l.url = m.url) && decide (l.draw = m.draw) &&
  (match l.frames, m.frames with
   | none, none => true
   | some fs, some gs => frameListKnownEqb fs gs
   | _, _ => false)

/-- Pointwise `layerKnownEqb` on layer lists. -/
def layerListKnownEqb : List Layer → List Layer → Bool
  | [], [] => true
  | a :: as, b :: bs => layerKnownEqb a b && layerListKnownEqb as bs
  | _, _ => false

/-! ### Concrete inputs used by witnesses -/

/-- A stand-in for the deterministic digest function in witnesses. -/
def hashW : NormPayload → String := fun n => toString n.layers.length ++ n.format

/-- Witness layer (known fields) with some unknown extra field. -/
def layerW1 : Layer :=
  { type := some "floor", key := some "wood-01", url := none, draw := none
    frames := none, extra := [("internalTag", "a")] }

/-- Same known fields as `layerW1`, different unknown extra field. -/
def layerW2 : Layer :=
  { type := some "floor", key := some "wood-01", url := none, draw := none
    frames := none, extra := [("internalTag", "b")] }

/-- First witness payload for the fingerprint-identity claim. -/
def pW1 : Payload :=
  { guild := some "guild-1", user := some "user-1"
    size := some { width := some 300, height := some 300 }
    format := some "gif", layers := some [layerW1], gifOptions := none
    backgroundColorHex := some "#ffffff", extra := [("fps", "12")] }

/-- Second witness payload: same size/layers(known)/format/gifOptions as
`pW1`, different guild, user, backgroundColorHex and unknown fields. -/
def pW2 : Payload :=
  { guild := some "guild-2", user := some "user-2"
    size := some { width := some 300, height := some 300 }
    format := some "gif", layers := some [layerW2], gifOptions := none
    backgroundColorHex := none, extra := [("durationMs", "2000")] }

/-! ### JS `Map` semantics over insertion-ordered association lists

`Map.set` on an existing key updates the value in place (keeping the
original insertion position); on a new key it appends.  `Map.delete`
removes the entry; iteration order is insertion order, so
`map.keys().next().value` is the head. -/

/-- JS `Map.has`. -/
def jsMapContains (m : List (String × β)) (k : String) : Bool :=
  m.any fun kv => decide (kv.1 = k)

/-- JS `Map.set`: in-place update of an existing key, else append. -/
def jsMapSet (m : List (String × β)) (k : String) (v : β) : List (String × β) :=
  if jsMapContains m k then m.map (fun kv => if kv.1 = k then (k, v) else kv)
  else m ++ [(k, v)]

/-- JS `Map.delete`. -/
def jsMapDelete (m : List (String × β)) (k : String) : List (String × β) :=
  m.filter fun kv => decide (kv.1 ≠ k)

/-- JS `Map.get`. -/
def jsMapGet (m : List (String × β)) (k : String) : Option β :=
  match m with
  | [] => none
  | kv :: rest => if kv.1 = k then some kv.2 else jsMapGet rest k

/-! ### `SimpleCache` (src/server.js:117-139) -/

/-- A cache entry; `expiresAt = 0` means "no expiry" (the code stores `0`
when `ttlMs` is falsy and treats a falsy `expiresAt` as unexpirable). -/
structure CacheEntry (α : Type) where
  value : α
  expiresAt : Int
deriving DecidableEq, Repr

/-- The `SimpleCache` state: a bound and a JS `Map` (insertion-ordered). -/
structure SimpleCache (α : Type) where
  max : Nat
  map : List (String × CacheEntry α)
deriving DecidableEq, Repr

/-- The eviction step at the top of `SimpleCache.set`
(src/server.js:132-135): when `size >= max`, delete the first-inserted
key.  On an empty map `keys().next().value` is `undefined` and the delete
is a no-op (string keys are never `undefined`). -/
def evictOldestIfFull (max : Nat) (m : List (String × CacheEntry α)) :
    List (String × CacheEntry α) :=
  if m.length ≥ max then
    match m with
    | [] => m
    | kv :: _ => jsMapDelete m kv.1
  else m

/-- `SimpleCache.get` (src/server.js:122-130), with the current time as an
explicit argument.  An entry with a nonzero `expiresAt` in the past is
deleted and the lookup misses. -/
def SimpleCache.get (c : SimpleCache α) (key : String) (now : Int) :
    Option α × SimpleCache α :=
  match jsMapGet c.map key with
  | none => (none, c)
  | some e =>
    if e.expiresAt ≠ 0 ∧ e.expiresAt < now then
      (none, { c with map := jsMapDelete c.map key })
    else (some e.value, c)

/-- `SimpleCache.set` (src/server.js:131-138). -/
def SimpleCache.set (c : SimpleCache α) (key : String) (value : α)
    (ttlMs : Int) (now : Int) : SimpleCache α :=
  { c with
    map := jsMapSet (evictOldestIfFull c.max c.map) key
      { value := value, expiresAt := if ttlMs ≠ 0 then now + ttlMs else 0 } }

/-! ### `mapWithConcurrency` (src/server.js:374-394)

The scheduler starts up to `limit` mapper calls at a time; slot `i` of the
result depends only on `mapper(items[i], i)`: it is the mapper's value, or
`undefined` when the mapper throws/rejects (the `catch` sets
`results[i] = undefined`; `reject` is never called).  The returned promise
resolves once all slots are filled — except that when `limit = 0` and
`items` is nonempty, `next()` neither starts a task nor resolves, so the
promise never settles; that divergent outcome is denoted by `none`. -/
def mwcRun (limit : Nat) (mapper : β → Nat → Except ε γ) :
    List β → Nat → Option (List (Option γ))
  | [], _ => some []
  | x :: rest, i =>
    if limit = 0 then none
    else (mwcRun limit mapper rest (i + 1)).map fun tail =>
      (mapper x i).toOption :: tail

/-- Denotation of `mapWithConcurrency(items, limit, mapper)`:
`some results` when the promise resolves, `none` when it never settles. -/
def mapWithConcurrency (items : List β) (limit : Nat)
    (mapper : β → Nat → Except ε γ) : Option (List (Option γ)) :=
  mwcRun limit mapper items 0

/-! ### Extension fallback (src/server.js:195-213) -/

/-- The characters of `".png"`. -/
def pngChars : List Char := ['.', 'p', 'n', 'g']

/-- The characters of `".gif"`. -/
def gifChars : List Char := ['.', 'g', 'i', 'f']

/-- Does `/\.EXT(\?.*)?$/i` match starting exactly here?  True when the
list starts with the extension (case-insensitively) followed by either the
end of the string or a `'?'` (the greedy `.*` then reaches the end). -/
def extMatchAt (ext : List Char) (cs : List Char) : Bool :=
  decide ((cs.take ext.length).map Char.toLower = ext ∧
    (cs.drop ext.length = [] ∨ (cs.drop ext.length).head? = some '?'))

/-- `String.prototype.replace` with the anchored extension regex: replace
at the leftmost position where the regex matches, keeping the tail (the
optional query string) unchanged; `none` when the regex does not match. -/
def swapFrom (src dst : List Char) : List Char → Option (List Char)
  | [] => none
  | c :: rest =>
    if extMatchAt src (c :: rest) then some (dst ++ (c :: rest).drop src.length)
    else (swapFrom src dst rest).map fun r => c :: r

/-- `swapImageExtension` (src/server.js:195-200): try the `.png → .gif`
rewrite first, then `.gif → .png`; `null` when neither regex matches. -/
def swapImageExtension (url : String) : Option String :=
  if url = "" then none
  else
    match swapFrom pngChars gifChars url.data with
    | some r => some (String.mk r)
    | none =>
      match swapFrom gifChars pngChars url.data with
      | some r => some (String.mk r)
      | none => none

/-- `fetchImageWithFallback` (src/server.js:202-213).  `env` is the
`fetchBuffer` oracle: the outcome of fetching each URL.  Note the `return
await fetchBuffer(alt)` sits inside the `catch` block, so a rejection of
the retry propagates the retry's own error. -/
def fetchImageWithFallback (env : String → Except ε α) (url : String) :
    Except ε α :=
  match env url with
  | Except.ok b => Except.ok b
  | Except.error e =>
    match swapImageExtension url with
    | some alt => env alt
    | none => Except.error e

/-! ### Compositor (src/server.js:223-329)

Fetch + decode of a URL (`fetchImageWithFallback` + `loadImageCached`) is
abstracted as an oracle `env : String → Option α`, where `α` stands for
decoded bitmaps and `none` is any fetch/decode failure (which the code
turns into a per-layer/per-frame skip). -/

/-- A fully-coerced draw rectangle at blit time
(`d.x || 0, d.y || 0, d.w || width, d.h || height`). -/
structure ResolvedRect where
  x : Int
  y : Int
  w : Int
  h : Int
deriving DecidableEq, Repr

/-- The full-canvas default rectangle `{x: 0, y: 0, w: width, h: height}`. -/
def fullRect (width height : Int) : Rect :=
  { x := some 0, y := some 0, w := some width, h := some height }

/-- Resolve a stored rectangle at draw time. -/
def resolveRect (width height : Int) (d : Rect) : ResolvedRect :=
  { x := jsNumOr d.x 0, y := jsNumOr d.y 0
    w := jsNumOr d.w width, h := jsNumOr d.h height }

/-- A decoded bitmap together with its stored draw rectangle. -/
structure Blit (α : Type) where
  img : α
  draw : Rect
deriving DecidableEq, Repr

/-- One `ctx.drawImage` call: a bitmap and a resolved rectangle. -/
structure Op (α : Type) where
  img : α
  rect : ResolvedRect
deriving DecidableEq, Repr

/-- A decoded layer of `composeGif` (src/server.js:258-284): a static
single bitmap, or the surviving frames of an animated layer. -/
inductive DecodedLayer (α : Type) where
  | static (b : Blit α)
  | frames (fs : List (Blit α))
deriving DecidableEq, Repr

/-- Fetch + decode one animation frame (src/server.js:263-271): skipped
when the frame has no truthy url or the fetch/decode fails; the stored
rectangle is `fr.draw || layer.draw || fullRect`. -/
def decodeFrame (env : String → Option α) (width height : Int)
    (layerDraw : Option Rect) (fr : Frame) : Option (Blit α) :=
  match jsTruthyStr fr.url with
  | none => none
  | some u =>
    match env u with
    | some img =>
      some { img := img, draw := (fr.draw <|> layerDraw).getD (fullRect width height) }
    | none => none

/-- The frames list of a layer (`[]` when `frames` is not an array). -/
def petFrames (l : Layer) : List Frame := l.frames.getD []

/-- Decode one input layer (src/server.js:260-284): a `pet_gif_frames`
layer with a nonempty frame list becomes an animated layer iff at least
one frame survives; otherwise a layer with a truthy `url` becomes a
static layer iff its fetch succeeds; anything else is dropped. -/
def decodeLayer (env : String → Option α) (width height : Int)
    (l : Layer) : Option (DecodedLayer α) :=
  if l.type = some "pet_gif_frames" ∧ petFrames l ≠ [] then
    let per := ((petFrames l).map (decodeFrame env width height l.draw)).filterMap id
    if per.length > 0 then some (DecodedLayer.frames per) else none
  else
    match jsTruthyStr l.url with
    | some u =>
      (env u).map fun img =>
        DecodedLayer.static { img := img, draw := l.draw.getD (fullRect width height) }
    | none => none

/-- All decoded layers, in input order. -/
def decodeLayers (env : String → Option α) (width height : Int)
    (layers : List Layer) : List (DecodedLayer α) :=
  layers.filterMap (decodeLayer env width height)

/-- One step of the incremental `maxFrames` accumulator
(src/server.js:259-275). -/
def maxFramesStep (m : Nat) (d : DecodedLayer α) : Nat :=
  match d with
  | DecodedLayer.frames fs => Nat.max m fs.length
  | DecodedLayer.static _ => m

/-- The `maxFrames` value after the decoding loop. -/
def maxFramesOf (ds : List (DecodedLayer α)) : Nat :=
  ds.foldl maxFramesStep 0

/-- The frame count a decoded layer contributes to `maxFrames`. -/
def dlSize : DecodedLayer α → Nat
  | DecodedLayer.static _ => 0
  | DecodedLayer.frames fs => fs.length

/-- The draw calls of output frame `i` (src/server.js:309-319): every
decoded layer in input order; an animated layer contributes
`frames[i % frames.length]`.  (For an empty frame list the JS index is
`NaN`, the lookup yields `undefined` and the layer is skipped; here
`i % 0 = i` and the optional lookup misses likewise.) -/
def frameOps (width height : Int) (ds : List (DecodedLayer α)) (i : Nat) :
    List (Op α) :=
  ds.filterMap fun d =>
    match d with
    | DecodedLayer.static b =>
      some { img := b.img, rect := resolveRect width height b.draw }
    | DecodedLayer.frames fs =>
      match fs[i % fs.length]? with
      | some f => some { img := f.img, rect := resolveRect width height f.draw }
      | none => none

/-- The result of `composePng`: background fill (when the hex string is
truthy) and the draw calls in input order; PNG byte encoding is outside
the model. -/
structure PngOutput (α : Type) where
  background : Option String
  ops : List (Op α)
deriving DecidableEq, Repr

/-- `if (backgroundHex)`: a truthy background string enables the fill. -/
def pngBackground (backgroundHex : String) : Option String :=
  if backgroundHex = "" then none else some backgroundHex

/-- `composePng` (src/server.js:223-245).  Per-layer failures or missing
urls yield skipped layers; surviving bitmaps are drawn in input order.
(The code runs the fetches through `mapWithConcurrency` with
`STATIC_FETCH_CONCURRENCY = 10`, a positive limit, whose denotation is
exactly this per-item map.) -/
def composePng (env : String → Option α) (width height : Int)
    (layers : List Layer) (backgroundHex : String) : PngOutput α :=
  let decoded := layers.map fun l =>
    match jsTruthyStr l.url with
    | none => none
    | some u =>
      (env u).map fun img =>
        ({ img := img, draw := l.draw.getD (fullRect width height) } : Blit α)
  { background := pngBackground backgroundHex
    ops := (decoded.filterMap id).map fun b =>
      { img := b.img, rect := resolveRect width height b.draw } }

/-- One encoded GIF frame: background fill and draw calls. -/
structure GifFrameOut (α : Type) where
  background : Option String
  ops : List (Op α)
deriving DecidableEq, Repr

/-- The encoder configuration and frame sequence produced by `composeGif`. -/
structure GifOutput (α : Type) where
  delayMs : Int
  repeatCount : Int
  quality : Int
  transparent : Option Int
  frames : List (GifFrameOut α)
deriving DecidableEq, Repr

/-- The result of `composeGif`: a GIF, or the PNG fallback. -/
inductive ComposeOut (α : Type) where
  | png (out : PngOutput α)
  | gif (out : GifOutput α)
deriving DecidableEq, Repr

/-- Hex digit value, as accepted by `parseInt(·, 16)`. -/
def hexDigitVal (c : Char) : Option Nat :=
  if '0' ≤ c ∧ c ≤ '9' then some (c.toNat - 48)
  else if 'a' ≤ c ∧ c ≤ 'f' then some (c.toNat - 87)
  else if 'A' ≤ c ∧ c ≤ 'F' then some (c.toNat - 55)
  else none

/-- Accumulate the maximal hex-digit prefix. -/
def parseHexGo : Nat → List Char → Nat
  | acc, [] => acc
  | acc, c :: rest =>
    match hexDigitVal c with
    | some d => parseHexGo (acc * 16 + d) rest
    | none => acc

/-- `parseInt(s, 16)` on the color-hex strings the code feeds it: parse a
maximal nonempty prefix of hex digits; `none` models `NaN`. -/
def parseHex16 (cs : List Char) : Option Int :=
  match cs with
  | [] => none
  | c :: _ =>
    match hexDigitVal c with
    | some _ => some (Int.ofNat (parseHexGo 0 cs))
    | none => none

/-- `s.replace('#', '')` removes the first `'#'` only. -/
def removeFirstHash : List Char → List Char
  | [] => []
  | c :: rest => if c = '#' then rest else c :: removeFirstHash rest

/-- `String(options?.backgroundColorHex || '')` (src/server.js:254). -/
def gifBackgroundHex (options : Option GifOptions) : String :=
  jsStrOr (options.bind GifOptions.backgroundColorHex) ""

/-- `composeGif` (src/server.js:247-329).  Decode all layers in input
order; `N = maxFrames`; when `N = 0` fall back to `composePng` over the
same layers (with the gifOptions background); otherwise configure the
encoder (delay 180, repeat 0, quality 10 defaults; transparent color only
when requested and finite) and emit `N` frames. -/
def composeGif (env : String → Option α) (width height : Int)
    (layers : List Layer) (options : Option GifOptions) : ComposeOut α :=
  let delayMs := jsNumOr (options.bind GifOptions.delayMs) 180
  let repeatC := (options.bind GifOptions.repeatCount).getD 0
  let quality := jsNumOr (options.bind GifOptions.quality) 10
  let wantTransparent := (options.bind GifOptions.transparent).getD false
  let transparentHex := jsStrOr (options.bind GifOptions.transparentColorHex) "#ff00ff"
  let transparentInt := parseHex16 (removeFirstHash transparentHex.data)
  let backgroundHex := gifBackgroundHex options
  let ds := decodeLayers env width height layers
  if maxFramesOf ds = 0 then
    ComposeOut.png (composePng env width height layers backgroundHex)
  else
    ComposeOut.gif
      { delayMs := delayMs
        repeatCount := repeatC
        quality := quality
        transparent := if wantTransparent then transparentInt else none
        frames := (List.range (maxFramesOf ds)).map fun i =>
          { background := pngBackground backgroundHex
            ops := frameOps width height ds i } }

/-! ### Spec-side definitions for the compositor claims -/

/-- The number of decoded frames an animated layer retains (0 for
non-animated layers). -/
def survivingFrameCount (env : String → Option α) (width height : Int)
    (l : Layer) : Nat :=
  if l.type = some "pet_gif_frames" ∧ petFrames l ≠ [] then
    (((petFrames l).map (decodeFrame env width height l.draw)).filterMap id).length
  else 0

/-- The maximum surviving-frame count over the input layers. -/
def maxSurvivingFrames (env : String → Option α) (width height : Int)
    (layers : List Layer) : Nat :=
  (layers.map (survivingFrameCount env width height)).foldr Nat.max 0

/-- Layer `d` contributes draw call `op` to output frame `i`: a static
layer contributes its bitmap, an animated layer its frame at index
`i mod (number of surviving frames)`. -/
def contributes (width height : Int) (i : Nat) :
    DecodedLayer α → Op α → Prop
  | DecodedLayer.static b, op =>
    op = { img := b.img, rect := resolveRect width height b.draw }
  | DecodedLayer.frames fs, op =>
    fs ≠ [] ∧ ∃ f, fs[i % fs.length]? = some f ∧
      op = { img := f.img, rect := resolveRect width height f.draw }

/-! ### Slugify and CDN resolution (src/server.js:72-114) -/

/-- ASCII lowercasing over the character list
(`String.prototype.toLowerCase` for the inputs in scope). -/
def strToLower (s : String) : String := String.mk (s.data.map Char.toLower)

/-- The whitespace characters `String.prototype.trim` removes (restricted
to the ASCII whitespace relevant here). -/
def isJsSpace (c : Char) : Bool :=
  c = ' ' ∨ c = '\t' ∨ c = '\n' ∨ c = '\r'

/-- Trim leading and trailing whitespace. -/
def trimChars (cs : List Char) : List Char :=
  ((cs.dropWhile isJsSpace).reverse.dropWhile isJsSpace).reverse

/-- Characters kept by the slug (`[a-z0-9]` after lowercasing). -/
def isSlugChar (c : Char) : Bool :=
  ('a' ≤ c ∧ c ≤ 'z') ∨ ('0' ≤ c ∧ c ≤ '9')

/-- `replace(/[^a-z0-9]+/g, '-')`: each maximal run of non-slug
characters becomes a single dash (`inRun` tracks an open run). -/
def collapseRuns : Bool → List Char → List Char
  | _, [] => []
  | inRun, c :: rest =>
    if isSlugChar c then c :: collapseRuns false rest
    else if inRun then collapseRuns true rest
    else '-' :: collapseRuns true rest

/-- `replace(/(^-|-$)/g, '')`, leading half: drop one leading dash. -/
def dropLeadingDash : List Char → List Char
  | '-' :: rest => rest
  | cs => cs

/-- `replace(/(^-|-$)/g, '')`, trailing half: drop one trailing dash. -/
def dropTrailingDash (cs : List Char) : List Char :=
  match cs.reverse with
  | '-' :: rest => rest.reverse
  | _ => cs

/-- `slugify` (src/server.js:72-78): `String(name || '')`, trim,
lowercase, collapse non-alphanumeric runs to `-`, strip edge dashes. -/
def slugify (name : Option String) : String :=
  String.mk (dropTrailingDash (dropLeadingDash
    (collapseRuns false ((trimChars (jsStrOr name "").data).map Char.toLower))))

/-- `ASSET_BASE_URL` at its default (trailing slash already absent). -/
def ASSET_BASE_URL : String := "https://cdn.jsdelivr.net/gh/Earth-J/cdn-files@main"

/-- `resolveCdnUrlByLayer` (src/server.js:80-114). -/
def resolveCdnUrlByLayer (l : Layer) : Option String :=
  let key := slugify l.key
  match l.type with
  | some "room-bg" | some "room_bg" | some "roomBg" =>
    some (ASSET_BASE_URL ++ "/backgrounds/" ++
      (if key = "" then "default" else key) ++ ".png")
  | some "background" => some (ASSET_BASE_URL ++ "/backgrounds/default.png")
  | some "floor" => some (ASSET_BASE_URL ++ "/floor/" ++ key ++ ".png")
  | some "furniture" => some (ASSET_BASE_URL ++ "/furniture/" ++ key ++ ".png")
  | some "wallpaper-left" | some "wallpaper_left" | some "wallpaperLeft" =>
    some (ASSET_BASE_URL ++ "/wallpaper/left/" ++ key ++ ".png")
  | some "wallpaper-right" | some "wallpaper_right" | some "wallpaperRight" =>
    some (ASSET_BASE_URL ++ "/wallpaper/right/" ++ key ++ ".png")
  | _ => none

/-! ### Validation of `POST /jobs` (src/server.js:396-420) -/

/-- `RENDER_MAX_WIDTH` default. -/
def MAX_WIDTH : Int := 1024

/-- `RENDER_MAX_HEIGHT` default. -/
def MAX_HEIGHT : Int := 1024

/-- `RENDER_MAX_LAYERS` default. -/
def MAX_LAYERS : Nat := 50

/-- `RENDER_MAX_FRAMES` default. -/
def MAX_FRAMES : Nat := 120

/-- JS falsiness of a required string field (`!payload.guild`). -/
def jsFalsyStr (v : Option String) : Bool :=
  match v with
  | none => true
  | some s => decide (s = "")

/-- `Number(payload.size?.width || 300)`. -/
def payloadWidth (p : Payload) : Int := jsNumOr (p.size.bind Size.width) 300

/-- `Number(payload.size?.height || 300)`. -/
def payloadHeight (p : Payload) : Int := jsNumOr (p.size.bind Size.height) 300

/-- The frame-count estimate (src/server.js:412-417): the maximum
`frames.length` over `pet_gif_frames` layers carrying a frames array. -/
def frameCountEstimate (layers : List Layer) : Nat :=
  layers.foldl (fun acc l =>
    if l.type = some "pet_gif_frames" ∧ l.frames ≠ none then
      Nat.max acc (petFrames l).length
    else acc) 0

/-- The validation of `POST /jobs` (src/server.js:396-420): `none` means
the payload is accepted (a jobId is returned); `some msg` is the 400. -/
def validatePayload (p : Payload) : Option String :=
  if jsFalsyStr p.guild = true ∨ jsFalsyStr p.user = true ∨ p.layers = none then
    some "Invalid payload"
  else if payloadWidth p > MAX_WIDTH ∨ payloadHeight p > MAX_HEIGHT then
    some "Size too large"
  else if (p.layers.getD []).length > MAX_LAYERS then
    some "Too many layers"
  else if frameCountEstimate (p.layers.getD []) > MAX_FRAMES then
    some "Too many frames"
  else none

/-- The acceptance condition exactly as claim C4 states it, reading
"guild or user missing" literally as the absence of the field. -/
abbrev submitAcceptsC4 (p : Payload) : Prop :=
  p.guild ≠ none ∧ p.user ≠ none ∧ p.layers ≠ none ∧
  payloadWidth p ≤ MAX_WIDTH ∧ payloadHeight p ≤ MAX_HEIGHT ∧
  (p.layers.getD []).length ≤ MAX_LAYERS ∧
  frameCountEstimate (p.layers.getD []) ≤ MAX_FRAMES

/-! ### The background render task (src/server.js:422-518) -/

/-- The environment a render task runs against: the fetch/decode oracle,
the two artifact-file probes (`fs.existsSync` on `<fp>.gif` / `<fp>.png`),
and whether the artifact write succeeds. -/
structure JobEnv (α : Type) where
  fetch : String → Option α
  artifactGif : Bool
  artifactPng : Bool
  writeOk : Bool

/-- One `jobs.set` call for a given job. -/
inductive RegWrite where
  | setPending
  | setDone (url : String) (format : String)
  | setError (message : String)
deriving DecidableEq, Repr

/-- Job status values. -/
inductive JobStatus where
  | pending
  | done
  | error
deriving DecidableEq, Repr

/-- The status a registry write stores. -/
def statusOfWrite : RegWrite → JobStatus
  | RegWrite.setPending => JobStatus.pending
  | RegWrite.setDone _ _ => JobStatus.done
  | RegWrite.setError _ => JobStatus.error

/-- `PUBLIC_BASE_URL` at its default (`http://localhost:8081`). -/
def BASE_URL : String := "http://localhost:8081"

/-- JS `url.endsWith(t)`. -/
def strEndsWith (s t : String) : Bool :=
  decide (s.data.reverse.take t.data.length = t.data.reverse)

/-- `url.endsWith('.gif') ? 'gif' : 'png'` (src/server.js:462,509). -/
def urlFormat (url : String) : String :=
  if strEndsWith url ".gif" then "gif" else "png"

/-- The artifact URL `${BASE_URL}/out/${cacheKey}.${ext}`. -/
def outUrl (fp ext : String) : String :=
  BASE_URL ++ "/out/" ++ fp ++ "." ++ ext

/-- Resolution of one input layer (src/server.js:470-481): animated
layers pass through; other layers become `{type:'static', url, draw}`
with the explicit url or the CDN url; unresolvable layers are dropped. -/
def resolveLayer (l : Layer) : Option Layer :=
  if l.type = some "pet_gif_frames" ∧ l.frames ≠ none then some l
  else
    (jsTruthyStr l.url <|> resolveCdnUrlByLayer l).map fun u =>
      { type := some "static", key := none, url := some u, draw := l.draw
        frames := none, extra := [] }

/-- All resolved layers, in input order. -/
def resolveLayers (layers : List Layer) : List Layer :=
  layers.filterMap resolveLayer

/-- `wantsGif` (src/server.js:434): requested format is `gif with any
casing, or some input layer is animated. -/
def wantsGif (p : Payload) : Bool :=
  decide (strToLower (jsStrOr p.format "") = "gif") ||
  (p.layers.getD []).any fun l => decide (l.type = some "pet_gif_frames")

/-- `composePng`'s background for the non-GIF branch
(src/server.js:497): `payload.backgroundColorHex ||
(payload.gifOptions && payload.gifOptions.backgroundColorHex) || ''`. -/
def pngJobBackground (p : Payload) : String :=
  jsStrOr p.backgroundColorHex
    (jsStrOr (p.gifOptions.bind GifOptions.backgroundColorHex) "")

/-- The observable result of one render task: the registry writes for
this job (in order, after the handler's initial pending write), the final
in-flight table, and what was composed (when a fresh render ran). -/
structure TaskResult (α : Type) where
  writes : List RegWrite
  table : List (String × Except Unit String)
  composed : Option (ComposeOut α)
deriving DecidableEq, Repr

/-- The background render task (src/server.js:426-515), as a function of
the environment and the in-flight table.  The table maps a fingerprint to
the eventual outcome of the promise stored there (`ok url` or a
rejection).  Artifact-cache hit and dedup-join paths leave the table
untouched.  A fresh render inserts its promise, and — exactly as in the
source — deletes it only after a successful await: the delete at
src/server.js:508 is unreachable when the promise rejects, because the
`await` at line 507 throws into the catch block at line 511. -/
def runRenderTask (hash : NormPayload → String) (env : JobEnv α)
    (table : List (String × Except Unit String)) (p : Payload) :
    TaskResult α :=
  let width := payloadWidth p
  let height := payloadHeight p
  let layersIn := p.layers.getD []
  let fp := stableHashPayload hash p
  if env.artifactGif then
    { writes := [RegWrite.setDone (outUrl fp "gif") "gif"], table := table
      composed := none }
  else if env.artifactPng then
    { writes := [RegWrite.setDone (outUrl fp "png") "png"], table := table
      composed := none }
  else
    let dedup : Option (Option String) :=
      match jsMapGet table fp with
      | some (Except.ok url) => some (if url = "" then none else some url)
      | some (Except.error _) => some none
      | none => none
    match dedup with
    | some (some url) =>
      { writes := [RegWrite.setDone url (urlFormat url)], table := table
        composed := none }
    | _ =>
      let resolved := resolveLayers layersIn
      let hasFrames := resolved.any fun l => decide (l.type = some "pet_gif_frames")
      let composedAndExt : ComposeOut α × String :=
        if wantsGif p && hasFrames then
          let r := composeGif env.fetch width height resolved p.gifOptions
          (r, match r with
              | ComposeOut.gif _ => "gif"
              | ComposeOut.png _ => "png")
        else
          (ComposeOut.png (composePng env.fetch width height resolved
            (pngJobBackground p)), "png")
      let outcome : Except String String :=
        if env.writeOk then Except.ok (outUrl fp composedAndExt.2)
        else Except.error "EWRITE"
      match outcome with
      | Except.ok url =>
        { writes := [RegWrite.setDone url (urlFormat url)]
          table := jsMapDelete (jsMapSet table fp (Except.ok url)) fp
          composed := some composedAndExt.1 }
      | Except.error e =>
        { writes := [RegWrite.setError e]
          table := jsMapSet table fp (Except.error ())
          composed := some composedAndExt.1 }

/-- The registry writes of an accepted job, from submission on: the
handler's pending insert (src/server.js:423) followed by the task's
writes. -/
def submitWrites (hash : NormPayload → String) (env : JobEnv α)
    (table : List (String × Except Unit String)) (p : Payload) :
    List RegWrite :=
  RegWrite.setPending :: (runRenderTask hash env table p).writes

/-! ### Concrete oracles and caches used by witnesses and counterexamples -/

/-- Fetch oracle where both the original URL and its swapped extension
fail, with distinguishable errors. -/
def envC5 : String → Except String Nat := fun u =>
  if u = "a.png" then Except.error "E1"
  else if u = "a.gif" then Except.error "E2"
  else Except.error "other"

/-- Fetch oracle where the `.png` fetch fails and the `.gif` retry
succeeds, and a non-image URL fails. -/
def envC5w : String → Except String Nat := fun u =>
  if u = "b.png" then Except.error "notfound"
  else if u = "b.gif" then Except.ok 7
  else Except.error "orig"

/-- A mapper that always succeeds (for the `limit = 0` counterexample). -/
def mapperC7 : Nat → Nat → Except String Nat := fun x _ => Except.ok x

/-- A mapper that fails on item index 1 and succeeds elsewhere. -/
def mapperC7w : Nat → Nat → Except String Nat := fun x i =>
  if i = 1 then Except.error "boom" else Except.ok (x * 10)

/-- A `SimpleCache` with `max = 0` (counterexample to the unrestricted
bound claim). -/
def cacheC8 : SimpleCache Nat := { max := 0, map := [] }

/-- A full one-slot cache holding an expirable entry. -/
def cacheC8w : SimpleCache Nat :=
  { max := 1, map := [("old", { value := 1, expiresAt := 50 })] }

/-- Fetch oracle for compositor witnesses: two frame urls decode. -/
def envC2 : String → Option Nat := fun u =>
  if u = "f1" then some 1 else if u = "f2" then some 2 else none

/-- A fetch oracle where every fetch fails. -/
def envNone : String → Option Nat := fun _ => none

/-- A two-frame animated layer. -/
def petLayerW : Layer :=
  { type := some "pet_gif_frames", key := none, url := none, draw := none
    frames := some [{ url := some "f1", draw := none, extra := [] },
                    { url := some "f2", draw := none, extra := [] }]
    extra := [] }

/-- An animated layer whose frames all fail to load under `envNone`. -/
def petBrokenW : Layer :=
  { type := some "pet_gif_frames", key := none, url := none, draw := none
    frames := some [{ url := some "x1", draw := none, extra := [] },
                    { url := some "x2", draw := none, extra := [] }]
    extra := [] }

/-- A typed CDN layer (exercises `slugify` + `resolveCdnUrlByLayer`). -/
def staticLayerW : Layer :=
  { type := some "floor", key := some "Wood 01", url := none, draw := none
    frames := none, extra := [] }

/-- A concrete digest stand-in for job-level witnesses. -/
def hash0 : NormPayload → String := fun _ => "cafebabe"

/-- A job environment with no artifacts, failing fetches and a failing
artifact write (the render promise rejects). -/
def envC6 : JobEnv Nat :=
  { fetch := fun _ => none, artifactGif := false, artifactPng := false
    writeOk := false }

/-- A payload for the failing-render scenario. -/
def pC6 : Payload :=
  { guild := some "g", user := some "u", size := none, format := none
    layers := some [staticLayerW], gifOptions := none
    backgroundColorHex := none, extra := [] }

/-- A job environment with no artifacts, failing fetches and a working
artifact write. -/
def envJobC3 : JobEnv Nat :=
  { fetch := fun _ => none, artifactGif := false, artifactPng := false
    writeOk := true }

/-- A GIF-requesting payload whose only animated layer never loads. -/
def pC3 : Payload :=
  { guild := some "g", user := some "u", size := none, format := some "gif"
    layers := some [petBrokenW], gifOptions := none
    backgroundColorHex := none, extra := [] }

/-- Payload with an empty-string guild: the field is present (not
missing) but JS-falsy. -/
def pC4 : Payload :=
  { guild := some "", user := some "u", size := none, format := none
    layers := some [], gifOptions := none, backgroundColorHex := none
    extra := [] }

/-! ### Helper lemmas for the fingerprint claims -/

theorem normalizeFrame_congr (base : NormRect) (a b : Frame)
    (h : frameKnownEqb a b = true) : normalizeFrame base a = normalizeFrame base b := by
  unfold frameKnownEqb at h
  rw [Bool.and_eq_true, decide_eq_true_iff, decide_eq_true_iff] at h
  unfold normalizeFrame
  rw [h.1, h.2]

theorem frameList_map_congr (base : NormRect) :
    ∀ (as bs : List Frame), frameListKnownEqb as bs = true →
      as.map (normalizeFrame base) = bs.map (normalizeFrame base) := by
  intro as
  induction as with
  | nil =>
    intro bs h
    cases bs with
    | nil => rfl
    | cons b bs => simp [frameListKnownEqb] at h
  | cons a as ih =>
    intro bs h
    cases bs with
    | nil => simp [frameListKnownEqb] at h
    | cons b bs =>
      unfold frameListKnownEqb at h
      rw [Bool.and_eq_true] at h
      simp only [List.map_cons]
      rw [normalizeFrame_congr base a b h.1, ih bs h.2]

theorem normalizeLayer_congr (s : NormSize) (l m : Layer)
    (h : layerKnownEqb l m = true) : normalizeLayer s l = normalizeLayer s m := by
  unfold layerKnownEqb at h
  rw [Bool.and_eq_true, Bool.and_eq_true, Bool.and_eq_true, Bool.and_eq_true] at h
  obtain ⟨⟨⟨⟨htype, hkey⟩, hurl⟩, hdraw⟩, hframes⟩ := h
  rw [decide_eq_true_iff] at htype hkey hurl hdraw
  unfold normalizeLayer
  rw [htype, hkey, hurl, hdraw]
  cases hl : l.frames with
  | none =>
    cases hm : m.frames with
    | none => rfl
    | some gs => rw [hl, hm] at hframes; simp at hframes
  | some fs =>
    cases hm : m.frames with
    | none => rw [hl, hm] at hframes; simp at hframes
    | some gs =>
      rw [hl, hm] at hframes
      simp only [Option.getD_some]
      have hmap := frameList_map_congr
        { x := jsNumOr (m.draw.bind Rect.x) 0
          y := jsNumOr (m.draw.bind Rect.y) 0
          w := jsNumOr (m.draw.bind Rect.w) s.w
          h := jsNumOr (m.draw.bind Rect.h) s.h } fs gs hframes
      rw [hmap]
      simp

theorem layerList_map_congr (s : NormSize) :
    ∀ (ls ms : List Layer), layerListKnownEqb ls ms = true →
      ls.map (normalizeLayer s) = ms.map (normalizeLayer s) := by
  intro ls
  induction ls with
  | nil =>
    intro ms h
    cases ms with
    | nil => rfl
    | cons m ms => simp [layerListKnownEqb] at h
  | cons l ls ih =>
    intro ms h
    cases ms with
    | nil => simp [layerListKnownEqb] at h
    | cons m ms =>
      unfold layerListKnownEqb at h
      rw [Bool.and_eq_true] at h
      simp only [List.map_cons]
      rw [normalizeLayer_congr s l m h.1, ih ms h.2]

/-! ### Claim theorems: C1 and C10 -/

/-- C1: the fingerprint (`stableHashPayload`) depends only on `size`, the
known layer fields (types, keys, urls, normalized draw rectangles, frame
lists), `format` and `gifOptions`.  Two payloads that differ only in
`guild`, `user`, or fields unknown to the normalization (here `extra` and
the top-level `backgroundColorHex`, which `stableHashPayload` never reads)
produce the same digest, for every deterministic digest function.
(Reordering of JSON map keys is absorbed by parsing into the record type
and so cannot influence the record either.) -/
theorem stableHashPayload_ignores_identity
    (hash : NormPayload → String) (p q : Payload)
    (hsize : p.size = q.size)
    (hlayers : layerListKnownEqb (p.layers.getD []) (q.layers.getD []) = true)
    (hformat : p.format = q.format)
    (hgif : p.gifOptions = q.gifOptions) :
    stableHashPayload hash p = stableHashPayload hash q := by
  unfold stableHashPayload
  congr 1
  unfold normalizePayload
  rw [hsize, hformat, hgif]
  have hmap := layerList_map_congr
    { w := jsNumOr (q.size.bind Size.width) 300
      h := jsNumOr (q.size.bind Size.height) 300 }
    (p.layers.getD []) (q.layers.getD []) hlayers
  simp only [hmap]

/-- Witness for C1: two concrete payloads differing in `guild`, `user`,
`backgroundColorHex`, top-level unknown fields and per-layer unknown
fields have the same fingerprint. -/
theorem stableHashPayload_ignores_identity_witness :
    pW1.guild ≠ pW2.guild ∧ pW1.user ≠ pW2.user ∧
    pW1.backgroundColorHex ≠ pW2.backgroundColorHex ∧
    pW1.extra ≠ pW2.extra ∧ pW1.layers ≠ pW2.layers ∧
    stableHashPayload hashW pW1 = stableHashPayload hashW pW2 :=
  ⟨by decide, by decide, by decide, by decide, by decide,
   stableHashPayload_ignores_identity hashW pW1 pW2 rfl (by decide) rfl rfl⟩

/-- C10: a payload with no `format` field and the same payload with
`format: "png"` have equal fingerprints: the normalization substitutes
`"png"` for a missing format (`payload.format || 'png'`,
src/server.js:370) before hashing. -/
theorem stableHashPayload_default_format
    (hash : NormPayload → String) (p : Payload) :
    stableHashPayload hash { p with format := none } =
      stableHashPayload hash { p with format := some "png" } := by
  unfold stableHashPayload normalizePayload
  rfl

/-! ### Helper lemmas: JS map operations and the cache -/

theorem jsMapSet_length_le (m : List (String × β)) (k : String) (v : β) :
    (jsMapSet m k v).length ≤ m.length + 1 := by
  unfold jsMapSet
  split
  · simp only [List.length_map]; omega
  · simp only [List.length_append, List.length_cons, List.length_nil]; omega

theorem jsMapDelete_length_le (m : List (String × β)) (k : String) :
    (jsMapDelete m k).length ≤ m.length :=
  List.length_filter_le _ m

theorem jsMapDelete_cons_self_length (kv : String × β) (rest : List (String × β)) :
    (jsMapDelete (kv :: rest) kv.1).length ≤ rest.length := by
  unfold jsMapDelete
  rw [List.filter_cons]
  have hc : (decide (kv.1 ≠ kv.1)) = false := by simp
  rw [hc]
  simp only [Bool.false_eq_true, if_false]
  exact List.length_filter_le _ rest

theorem jsMapGet_jsMapDelete_self (m : List (String × β)) (k : String) :
    jsMapGet (jsMapDelete m k) k = none := by
  induction m with
  | nil => rfl
  | cons kv rest ih =>
    unfold jsMapDelete at ih ⊢
    rw [List.filter_cons]
    by_cases h : kv.1 = k
    · have hc : (decide (kv.1 ≠ k)) = false := by simp [h]
      rw [hc]
      simpa using ih
    · have hc : (decide (kv.1 ≠ k)) = true := by simp [h]
      rw [hc]
      simp only [if_true]
      unfold jsMapGet
      rw [if_neg h]
      exact ih

theorem jsMapGet_update_ne (m : List (String × β)) (k k2 : String) (v : β)
    (hne : k2 ≠ k) :
    jsMapGet (m.map fun kv => if kv.1 = k then (k, v) else kv) k2 = jsMapGet m k2 := by
  induction m with
  | nil => rfl
  | cons kv rest ih =>
    simp only [List.map_cons]
    by_cases h : kv.1 = k
    · rw [if_pos h]
      unfold jsMapGet
      rw [if_neg (fun hc => hne hc.symm), if_neg (fun hc => hne (h ▸ hc).symm)]
      exact ih
    · rw [if_neg h]
      unfold jsMapGet
      by_cases h2 : kv.1 = k2
      · rw [if_pos h2, if_pos h2]
      · rw [if_neg h2, if_neg h2]
        exact ih

theorem jsMapGet_jsMapSet_ne (m : List (String × β)) (k k2 : String) (v : β)
    (hne : k2 ≠ k) : jsMapGet (jsMapSet m k v) k2 = jsMapGet m k2 := by
  unfold jsMapSet
  split
  · exact jsMapGet_update_ne m k k2 v hne
  · rename_i hnc
    clear hnc
    induction m with
    | nil =>
      simp only [List.nil_append]
      unfold jsMapGet
      rw [if_neg (fun hc => hne hc.symm)]
      rfl
    | cons kv rest ih =>
      simp only [List.cons_append]
      unfold jsMapGet
      by_cases h2 : kv.1 = k2
      · rw [if_pos h2, if_pos h2]
      · rw [if_neg h2, if_neg h2]
        exact ih

theorem evictOldestIfFull_length_lt (max : Nat) (m : List (String × CacheEntry α))
    (h1 : 1 ≤ max) (h2 : m.length ≤ max) :
    (evictOldestIfFull max m).length < max := by
  unfold evictOldestIfFull
  split
  · rename_i hfull
    cases m with
    | nil => simpa using h1
    | cons kv rest =>
      have hle := jsMapDelete_cons_self_length kv rest
      have hlen : rest.length + 1 ≤ max := by simpa using h2
      show (jsMapDelete (kv :: rest) kv.1).length < max
      omega
  · rename_i hnotfull
    omega

/-! ### Helper lemmas: `mapWithConcurrency` -/

theorem mwcRun_pos {β γ ε : Type} (limit : Nat) (mapper : β → Nat → Except ε γ)
    (h : 1 ≤ limit) :
    ∀ (items : List β) (j : Nat), ∃ l, mwcRun limit mapper items j = some l ∧
      l.length = items.length ∧
      ∀ i : Nat, l[i]? = (items[i]?).map fun x => (mapper x (j + i)).toOption := by
  intro items
  induction items with
  | nil =>
    intro j
    exact ⟨[], rfl, rfl, by intro i; simp⟩
  | cons x rest ih =>
    intro j
    obtain ⟨tail, htail, hlen, hget⟩ := ih (j + 1)
    refine ⟨(mapper x j).toOption :: tail, ?_, by simp [hlen], ?_⟩
    · simp only [mwcRun]
      rw [if_neg (by omega), htail]
      rfl
    · intro i
      cases i with
      | zero => simp
      | succ i =>
        simp only [List.getElem?_cons_succ]
        rw [hget i]
        have hidx : j + 1 + i = j + (i + 1) := by omega
        rw [hidx]

/-! ### Helper lemmas: extension swapping -/

theorem string_data_append (s t : String) : (s ++ t).data = s.data ++ t.data := by
  cases s; cases t; rfl

theorem swapFrom_shape (src dst : List Char) :
    ∀ (cs r : List Char), swapFrom src dst cs = some r →
      ∃ pre mid suf, cs = pre ++ mid ++ suf ∧ r = pre ++ dst ++ suf ∧
        mid.map Char.toLower = src ∧ (suf = [] ∨ suf.head? = some '?') := by
  intro cs
  induction cs with
  | nil => intro r h; simp [swapFrom] at h
  | cons c rest ih =>
    intro r h
    simp only [swapFrom] at h
    split at h
    · rename_i hmatch
      simp only [extMatchAt, decide_eq_true_eq] at hmatch
      obtain ⟨hm1, hm2⟩ := hmatch
      injection h with h
      refine ⟨[], (c :: rest).take src.length, (c :: rest).drop src.length,
        ?_, ?_, hm1, hm2⟩
      · simp [List.take_append_drop]
      · rw [← h]; simp
    · rw [Option.map_eq_some'] at h
      obtain ⟨r0, hr0, hcr⟩ := h
      obtain ⟨pre, mid, suf, hcs, hr, hmap, hsuf⟩ := ih r0 hr0
      refine ⟨c :: pre, mid, suf, ?_, ?_, hmap, hsuf⟩
      · simp [hcs]
      · rw [← hcr, hr]; simp

theorem swapFrom_isSome (src dst : List Char) (hs : src ≠ []) :
    ∀ (pre mid suf : List Char), mid.map Char.toLower = src →
      (suf = [] ∨ suf.head? = some '?') →
      (swapFrom src dst (pre ++ (mid ++ suf))).isSome = true := by
  intro pre
  induction pre with
  | nil =>
    intro mid suf hmap hsuf
    cases mid with
    | nil =>
      simp only [List.map_nil] at hmap
      exact absurd hmap.symm hs
    | cons m ms =>
      have hcond : extMatchAt src ((m :: ms) ++ suf) = true := by
        simp only [extMatchAt, decide_eq_true_eq]
        have hlen : src.length = (m :: ms).length := by
          rw [← hmap]; simp
        constructor
        · rw [hlen, List.take_left]
          exact hmap
        · rw [hlen, List.drop_left]
          exact hsuf
      rw [List.cons_append] at hcond
      simp only [List.nil_append, List.cons_append]
      simp [swapFrom, hcond]
  | cons p pre ih =>
    intro mid suf hmap hsuf
    have h2 := ih mid suf hmap hsuf
    simp only [List.cons_append]
    simp only [swapFrom]
    split
    · rfl
    · obtain ⟨r, hr⟩ := Option.isSome_iff_exists.mp h2
      simp [hr]

/-! ### Claim theorems: C5, C7, C8 -/

/-- C5 (amended): on a fetch failure, if the URL matches the `.png`/`.gif`
regex (extension optionally followed by a query string) the fetch is
retried exactly once with the extension swapped and the query preserved,
and the retry's outcome — including the retry's own error, not the
original one — is what the caller sees; URLs matching neither regex
propagate the original error with no retry. -/
theorem fetchImageWithFallback_retry {ε α : Type} :
    (∀ (env : String → Except ε α) (url alt : String) (e : ε),
        env url = Except.error e → swapImageExtension url = some alt →
        fetchImageWithFallback env url = env alt) ∧
    (∀ (env : String → Except ε α) (url : String) (e : ε),
        env url = Except.error e → swapImageExtension url = none →
        fetchImageWithFallback env url = Except.error e) ∧
    (∀ url alt : String, swapImageExtension url = some alt →
        ∃ pre mid suf : List Char,
          url.data = pre ++ mid ++ suf ∧ (suf = [] ∨ suf.head? = some '?') ∧
          ((mid.map Char.toLower = pngChars ∧ alt.data = pre ++ gifChars ++ suf) ∨
           (mid.map Char.toLower = gifChars ∧ alt.data = pre ++ pngChars ++ suf))) ∧
    (∀ base q : String, (q = "" ∨ q.data.head? = some '?') →
        (swapImageExtension (base ++ ".png" ++ q)).isSome = true ∧
        (swapImageExtension (base ++ ".gif" ++ q)).isSome = true) := by
  refine ⟨?_, ?_, ?_, ?_⟩
  · intro env url alt e he hswap
    unfold fetchImageWithFallback
    rw [he, hswap]
  · intro env url e he hswap
    unfold fetchImageWithFallback
    rw [he, hswap]
  · intro url alt h
    unfold swapImageExtension at h
    split at h
    · exact absurd h (by simp)
    · cases hpng : swapFrom pngChars gifChars url.data with
      | some r =>
        rw [hpng] at h
        have h2 : some (String.mk r) = some alt := h
        injection h2 with h2
        obtain ⟨pre, mid, suf, hcs, hr, hmap, hsuf⟩ :=
          swapFrom_shape pngChars gifChars url.data r hpng
        exact ⟨pre, mid, suf, hcs, hsuf, Or.inl ⟨hmap, by rw [← h2, hr]⟩⟩
      | none =>
        rw [hpng] at h
        cases hgif : swapFrom gifChars pngChars url.data with
        | some r =>
          rw [hgif] at h
          have h2 : some (String.mk r) = some alt := h
          injection h2 with h2
          obtain ⟨pre, mid, suf, hcs, hr, hmap, hsuf⟩ :=
            swapFrom_shape gifChars pngChars url.data r hgif
          exact ⟨pre, mid, suf, hcs, hsuf, Or.inr ⟨hmap, by rw [← h2, hr]⟩⟩
        | none =>
          rw [hgif] at h
          exact absurd h (by simp)
  · intro base q hq
    have hqdata : q.data = [] ∨ q.data.head? = some '?' := by
      cases hq with
      | inl h => left; rw [h]
      | inr h => right; exact h
    constructor
    · have hdata : (base ++ ".png" ++ q).data = base.data ++ (pngChars ++ q.data) := by
        rw [string_data_append, string_data_append]
        simp [pngChars]
      have hne : (base ++ ".png" ++ q) ≠ "" := by
        intro hcontra
        have hd : (base ++ ".png" ++ q).data = [] := by rw [hcontra]
        rw [hdata] at hd
        simp [pngChars] at hd
      unfold swapImageExtension
      rw [if_neg hne, hdata]
      have hsome := swapFrom_isSome pngChars gifChars (by decide)
        base.data pngChars q.data (by decide) hqdata
      obtain ⟨r, hr⟩ := Option.isSome_iff_exists.mp hsome
      simp [hr]
    · have hdata : (base ++ ".gif" ++ q).data = base.data ++ (gifChars ++ q.data) := by
        rw [string_data_append, string_data_append]
        simp [gifChars]
      have hne : (base ++ ".gif" ++ q) ≠ "" := by
        intro hcontra
        have hd : (base ++ ".gif" ++ q).data = [] := by rw [hcontra]
        rw [hdata] at hd
        simp [gifChars] at hd
      unfold swapImageExtension
      rw [if_neg hne, hdata]
      cases hpng : swapFrom pngChars gifChars (base.data ++ (gifChars ++ q.data)) with
      | some r => simp [hpng]
      | none =>
        have hsome := swapFrom_isSome gifChars pngChars (by decide)
          base.data gifChars q.data (by decide) hqdata
        obtain ⟨r, hr⟩ := Option.isSome_iff_exists.mp hsome
        simp [hpng, hr]

/-- C5 counterexample: when both the original `.png` fetch and the `.gif`
retry fail with distinct errors, the caller receives the retry's error
`E2`, not the original error `E1` as the claim states (the `return await
fetchBuffer(alt)` inside the catch block is not itself guarded). -/
theorem fetchImageWithFallback_original_error_cex :
    envC5 "a.png" = Except.error "E1" ∧ envC5 "a.gif" = Except.error "E2" ∧
    fetchImageWithFallback envC5 "a.png" = Except.error "E2" ∧
    fetchImageWithFallback envC5 "a.png" ≠ Except.error "E1" := by decide

/-- Witness for C5 (amended): concrete applications of every part. -/
theorem fetchImageWithFallback_retry_witness :
    fetchImageWithFallback envC5w "b.png" = envC5w "b.gif" ∧
    fetchImageWithFallback envC5w "plain" = Except.error "orig" ∧
    (swapImageExtension ("img" ++ ".png" ++ "?v=1")).isSome = true ∧
    (∃ pre mid suf : List Char,
      ("b.png" : String).data = pre ++ mid ++ suf ∧
      (suf = [] ∨ suf.head? = some '?') ∧
      ((mid.map Char.toLower = pngChars ∧
          ("b.gif" : String).data = pre ++ gifChars ++ suf) ∨
       (mid.map Char.toLower = gifChars ∧
          ("b.gif" : String).data = pre ++ pngChars ++ suf))) := by
  refine ⟨?_, ?_, ?_, ?_⟩
  · exact (@fetchImageWithFallback_retry String Nat).1 envC5w "b.png" "b.gif"
      "notfound" (by decide) (by decide)
  · exact (@fetchImageWithFallback_retry String Nat).2.1 envC5w "plain" "orig"
      (by decide) (by decide)
  · exact ((@fetchImageWithFallback_retry String Nat).2.2.2 "img" "?v=1"
      (by decide)).1
  · exact (@fetchImageWithFallback_retry String Nat).2.2.1 "b.png" "b.gif"
      (by decide)

/-- C7 (amended): for every item list, every positive limit, and every
mapper, `mapWithConcurrency` resolves (never rejects — `reject` is never
invoked) with a result list of the same length whose slot `i` holds the
mapper's value for item `i`, or an absent slot when that mapper call
failed.  (With `limit = 0` and a nonempty list the promise never settles;
see the counterexample.) -/
theorem mapWithConcurrency_spec {β γ ε : Type}
    (items : List β) (limit : Nat) (mapper : β → Nat → Except ε γ)
    (h : 1 ≤ limit) :
    ∃ l, mapWithConcurrency items limit mapper = some l ∧
      l.length = items.length ∧
      ∀ i : Nat, l[i]? = (items[i]?).map fun x => (mapper x i).toOption := by
  obtain ⟨l, h1, h2, h3⟩ := mwcRun_pos limit mapper h items 0
  refine ⟨l, h1, h2, fun i => ?_⟩
  rw [h3 i]
  simp [Nat.zero_add]

/-- C7 counterexample: with `limit = 0` and a nonempty item list,
`next()` neither starts a mapper nor resolves, so the promise returned by
`mapWithConcurrency` never settles and no result list is produced,
contradicting the claim's "for every … limit L … returns". -/
theorem mapWithConcurrency_zero_limit_cex :
    mapWithConcurrency [(1 : Nat)] 0 mapperC7 = none := rfl

/-- Witness for C7 (amended): a two-item run with limit 1 whose second
mapper call fails, yielding an absent slot in position 1. -/
theorem mapWithConcurrency_spec_witness :
    ∃ l, mapWithConcurrency [(3 : Nat), 4] 1 mapperC7w = some l ∧
      l.length = 2 ∧
      ∀ i : Nat, l[i]? = (([(3 : Nat), 4])[i]?).map fun x => (mapperC7w x i).toOption :=
  mapWithConcurrency_spec [(3 : Nat), 4] 1 mapperC7w (by decide)

/-- C8 (amended): for every `SimpleCache` whose bound `max` is at least 1,
`set` preserves `size ≤ max` (evicting the oldest insertion first when at
capacity), `get` never grows the map, `get` on an entry whose TTL has
expired deletes it and misses, and a `set` at capacity evicts the
first-inserted key.  (For `max = 0` the bound is violated; see the
counterexample.) -/
theorem simpleCache_ops {α : Type} :
    (∀ (c : SimpleCache α) (key : String) (value : α) (ttlMs now : Int),
        1 ≤ c.max → c.map.length ≤ c.max →
        (c.set key value ttlMs now).map.length ≤ c.max) ∧
    (∀ (c : SimpleCache α) (key : String) (now : Int),
        ((c.get key now).2).map.length ≤ c.map.length) ∧
    (∀ (c : SimpleCache α) (key : String) (now : Int) (e : CacheEntry α),
        jsMapGet c.map key = some e → e.expiresAt ≠ 0 → e.expiresAt < now →
        (c.get key now).1 = none ∧
        jsMapGet ((c.get key now).2).map key = none) ∧
    (∀ (c : SimpleCache α) (kv : String × CacheEntry α)
        (rest : List (String × CacheEntry α)) (key : String) (value : α)
        (ttlMs now : Int), c.map = kv :: rest → c.map.length ≥ c.max →
        key ≠ kv.1 →
        jsMapGet ((c.set key value ttlMs now)).map kv.1 = none) := by
  refine ⟨?_, ?_, ?_, ?_⟩
  · intro c key value ttlMs now h1 h2
    have hev := evictOldestIfFull_length_lt c.max c.map h1 h2
    have hset := jsMapSet_length_le (evictOldestIfFull c.max c.map) key
      { value := value, expiresAt := if ttlMs ≠ 0 then now + ttlMs else 0 }
    show (jsMapSet (evictOldestIfFull c.max c.map) key
      { value := value, expiresAt := if ttlMs ≠ 0 then now + ttlMs else 0 }).length ≤ c.max
    omega
  · intro c key now
    rcases hget : jsMapGet c.map key with _ | e
    · simp [SimpleCache.get, hget]
    · simp only [SimpleCache.get, hget]
      split
      · show (jsMapDelete c.map key).length ≤ c.map.length
        exact jsMapDelete_length_le c.map key
      · simp
  · intro c key now e hget hne hlt
    simp only [SimpleCache.get, hget]
    rw [if_pos ⟨hne, hlt⟩]
    exact ⟨rfl, jsMapGet_jsMapDelete_self c.map key⟩
  · intro c kv rest key value ttlMs now hmap hfull hne
    have hfull2 : (kv :: rest).length ≥ c.max := by
      rw [← hmap]; exact hfull
    simp only [SimpleCache.set, evictOldestIfFull, hmap]
    rw [if_pos hfull2]
    rw [jsMapGet_jsMapSet_ne _ key kv.1 _ (Ne.symm hne)]
    exact jsMapGet_jsMapDelete_self (kv :: rest) kv.1

/-! ### Helper lemmas: the compositor -/

theorem natMaxZeroLeft (x : Nat) : Nat.max 0 x = x :=
  Nat.max_eq_right (Nat.zero_le x)

theorem natMaxAssoc (a b c : Nat) :
    Nat.max (Nat.max a b) c = Nat.max a (Nat.max b c) := by
  simp only [Nat.max_def]
  split_ifs <;> omega

theorem maxFramesOf_foldl (ds : List (DecodedLayer α)) :
    ∀ a : Nat, ds.foldl maxFramesStep a = Nat.max a (maxFramesOf ds) := by
  induction ds with
  | nil =>
    intro a
    simp [maxFramesOf]
  | cons d ds ih =>
    intro a
    have hstep : ∀ m, maxFramesStep m d = Nat.max m (dlSize d) := by
      intro m; cases d <;> simp [maxFramesStep, dlSize]
    simp only [maxFramesOf, List.foldl_cons] at *
    rw [ih (maxFramesStep a d), ih (maxFramesStep 0 d), hstep a, hstep 0,
      natMaxZeroLeft, natMaxAssoc]

theorem maxFramesOf_cons (d : DecodedLayer α) (rest : List (DecodedLayer α)) :
    maxFramesOf (d :: rest) = Nat.max (dlSize d) (maxFramesOf rest) := by
  show List.foldl maxFramesStep (maxFramesStep 0 d) rest = _
  rw [maxFramesOf_foldl]
  congr 1
  cases d <;> simp [maxFramesStep, dlSize]

theorem decodeLayer_dlSize (env : String → Option α) (w h : Int) (l : Layer) :
    (decodeLayer env w h l).elim 0 dlSize = survivingFrameCount env w h l := by
  unfold decodeLayer survivingFrameCount
  by_cases hc : l.type = some "pet_gif_frames" ∧ petFrames l ≠ []
  · rw [if_pos hc, if_pos hc]
    dsimp only
    by_cases hper :
        (((petFrames l).map (decodeFrame env w h l.draw)).filterMap id).length > 0
    · rw [if_pos hper]
      simp [dlSize]
    · rw [if_neg hper]
      simp only [Option.elim]
      omega
  · rw [if_neg hc, if_neg hc]
    rcases h1 : jsTruthyStr l.url with _ | u
    · simp [h1]
    · rcases h2 : env u with _ | img
      · simp [h1, h2]
      · simp [h1, h2, dlSize]

theorem maxFramesOf_decodeLayers (env : String → Option α) (w h : Int)
    (layers : List Layer) :
    maxFramesOf (decodeLayers env w h layers) = maxSurvivingFrames env w h layers := by
  induction layers with
  | nil => rfl
  | cons l ls ih =>
    have hsz := decodeLayer_dlSize env w h l
    unfold decodeLayers at ih ⊢
    unfold maxSurvivingFrames at ih ⊢
    simp only [List.map_cons, List.foldr_cons]
    cases hd : decodeLayer env w h l with
    | none =>
      rw [hd] at hsz
      simp only [Option.elim] at hsz
      simp only [List.filterMap_cons, hd]
      rw [ih, ← hsz, natMaxZeroLeft]
    | some d =>
      rw [hd] at hsz
      simp only [Option.elim] at hsz
      simp only [List.filterMap_cons, hd]
      rw [maxFramesOf_cons, hsz, ih]

theorem decodeLayer_frames_ne (env : String → Option α) (w h : Int) (l : Layer)
    (fs : List (Blit α))
    (hd : decodeLayer env w h l = some (DecodedLayer.frames fs)) : fs ≠ [] := by
  unfold decodeLayer at hd
  split at hd
  · dsimp only at hd
    split at hd
    · rename_i hper
      injection hd with hd
      injection hd with hd
      intro hnil
      rw [hd, hnil] at hper
      simp at hper
    · exact absurd hd (by simp)
  · rcases h1 : jsTruthyStr l.url with _ | u
    · rw [h1] at hd
      exact absurd hd (by simp)
    · rw [h1] at hd
      dsimp only at hd
      rcases h2 : env u with _ | img
      · rw [h2] at hd
        exact absurd hd (by simp)
      · rw [h2] at hd
        simp at hd

theorem decodeLayers_frames_ne (env : String → Option α) (w h : Int)
    (layers : List Layer) :
    ∀ fs, DecodedLayer.frames fs ∈ decodeLayers env w h layers → fs ≠ [] := by
  intro fs hmem
  unfold decodeLayers at hmem
  rw [List.mem_filterMap] at hmem
  obtain ⟨l, _, hdl⟩ := hmem
  exact decodeLayer_frames_ne env w h l fs hdl

theorem frameOps_forall2 (width height : Int) (i : Nat) :
    ∀ ds : List (DecodedLayer α),
      (∀ fs, DecodedLayer.frames fs ∈ ds → fs ≠ []) →
      List.Forall₂ (contributes width height i) ds (frameOps width height ds i) := by
  intro ds
  induction ds with
  | nil => intro _; exact List.Forall₂.nil
  | cons d ds ih =>
    intro hne
    have hdtail : ∀ fs, DecodedLayer.frames fs ∈ ds → fs ≠ [] := fun fs hm =>
      hne fs (List.mem_cons_of_mem _ hm)
    cases d with
    | static b =>
      have hsimp : frameOps width height (DecodedLayer.static b :: ds) i =
          { img := b.img, rect := resolveRect width height b.draw } ::
            frameOps width height ds i := by
        simp [frameOps, List.filterMap_cons]
      rw [hsimp]
      exact List.Forall₂.cons rfl (ih hdtail)
    | frames fs =>
      have hfs : fs ≠ [] := hne fs (List.mem_cons_self _ _)
      have hlt : i % fs.length < fs.length :=
        Nat.mod_lt _ (List.length_pos.mpr hfs)
      have hsimp : frameOps width height (DecodedLayer.frames fs :: ds) i =
          { img := (fs[i % fs.length]).img
            rect := resolveRect width height (fs[i % fs.length]).draw } ::
            frameOps width height ds i := by
        simp [frameOps, List.filterMap_cons, List.getElem?_eq_getElem hlt]
      rw [hsimp]
      exact List.Forall₂.cons
        ⟨hfs, fs[i % fs.length], List.getElem?_eq_getElem hlt, rfl⟩ (ih hdtail)

theorem composeGif_noframes (env : String → Option α) (width height : Int)
    (layers : List Layer) (options : Option GifOptions)
    (h0 : maxSurvivingFrames env width height layers = 0) :
    composeGif env width height layers options =
      ComposeOut.png (composePng env width height layers (gifBackgroundHex options)) := by
  have hn : maxFramesOf (decodeLayers env width height layers) = 0 := by
    rw [maxFramesOf_decodeLayers]
    exact h0
  simp only [composeGif]
  rw [if_pos hn]

theorem jsFalsy_true_iff (v : Option String) :
    jsFalsyStr v = true ↔ (v = none ∨ v = some "") := by
  cases v <;> simp [jsFalsyStr]

theorem jsFalsy_false_iff (v : Option String) :
    jsFalsyStr v = false ↔ (v ≠ none ∧ v ≠ some "") := by
  cases v <;> simp [jsFalsyStr]

/-! ### Helper lemmas: URL format inference and the render task -/

theorem strEndsWith_ne_of_append (xs ys : List Char) (s t : String)
    (hs : s.data = xs ++ ys) (hlen : ys.length = t.data.length)
    (hne : ys ≠ t.data) : strEndsWith s t = false := by
  unfold strEndsWith
  apply decide_eq_false
  intro hc
  rw [hs, List.reverse_append] at hc
  have htake : List.take ys.length (ys.reverse ++ xs.reverse) = ys.reverse := by
    rw [show ys.length = ys.reverse.length from (List.length_reverse ys).symm]
    exact List.take_left ys.reverse xs.reverse
  rw [← hlen, htake] at hc
  exact hne (List.reverse_injective hc)

theorem urlFormat_outUrl_png (fp : String) : urlFormat (outUrl fp "png") = "png" := by
  have hdata : (outUrl fp "png").data =
      (BASE_URL ++ "/out/" ++ fp).data ++ ['.', 'p', 'n', 'g'] := by
    unfold outUrl
    rw [string_data_append, string_data_append, List.append_assoc]
    rfl
  have hf := strEndsWith_ne_of_append (BASE_URL ++ "/out/" ++ fp).data
    ['.', 'p', 'n', 'g'] (outUrl fp "png") ".gif" hdata rfl (by decide)
  unfold urlFormat
  rw [hf]
  simp

theorem runRenderTask_writes (hash : NormPayload → String) (env : JobEnv α)
    (table : List (String × Except Unit String)) (p : Payload) :
    (∃ u f, (runRenderTask hash env table p).writes = [RegWrite.setDone u f]) ∨
    (∃ m, (runRenderTask hash env table p).writes = [RegWrite.setError m]) := by
  simp only [runRenderTask]
  split
  · left; exact ⟨_, _, rfl⟩
  · split
    · left; exact ⟨_, _, rfl⟩
    · split
      · left; exact ⟨_, _, rfl⟩
      · split
        · left; exact ⟨_, _, rfl⟩
        · right; exact ⟨_, rfl⟩

/-! ### Claim theorems: C2, C3, C4, C6, C9 -/

/-- C2: for a GIF composition with at least one animated layer retaining
at least one decoded frame, `composeGif` emits a GIF whose frame count is
the maximum surviving-frame count over the animated layers, and in output
frame `i` the resolved layers appear in input declaration order
(`List.Forall₂` pairs them positionally), each animated layer
contributing its frame at index `i mod (its surviving frame count)`. -/
theorem composeGif_frame_structure (env : String → Option α)
    (width height : Int) (layers : List Layer) (options : Option GifOptions)
    (hN : 0 < maxSurvivingFrames env width height layers) :
    ∃ g, composeGif env width height layers options = ComposeOut.gif g ∧
      g.frames.length = maxSurvivingFrames env width height layers ∧
      ∀ (i : Nat) (hi : i < g.frames.length),
        List.Forall₂ (contributes width height i)
          (decodeLayers env width height layers) ((g.frames.get ⟨i, hi⟩).ops) := by
  have hbr := maxFramesOf_decodeLayers env width height layers
  have hn : ¬ (maxFramesOf (decodeLayers env width height layers) = 0) := by omega
  simp only [composeGif]
  rw [if_neg hn]
  refine ⟨_, rfl, ?_, ?_⟩
  · simp [hbr]
  · intro i hi
    have hfa := frameOps_forall2 width height i
      (decodeLayers env width height layers)
      (decodeLayers_frames_ne env width height layers)
    simp only [List.get_eq_getElem, List.getElem_map, List.getElem_range]
    exact hfa

/-- Witness for C2: a two-frame animated layer under a concrete oracle. -/
theorem composeGif_frame_structure_witness :
    0 < maxSurvivingFrames envC2 4 4 [petLayerW] ∧
    ∃ g, composeGif envC2 4 4 [petLayerW] none = ComposeOut.gif g ∧
      g.frames.length = maxSurvivingFrames envC2 4 4 [petLayerW] ∧
      ∀ (i : Nat) (hi : i < g.frames.length),
        List.Forall₂ (contributes 4 4 i)
          (decodeLayers envC2 4 4 [petLayerW]) ((g.frames.get ⟨i, hi⟩).ops) :=
  ⟨by decide, composeGif_frame_structure envC2 4 4 [petLayerW] none (by decide)⟩

/-- C3: (i) when no animated layer retains any decoded frame
(`maxFrames = 0`), `composeGif` falls back to `composePng` over the same
layers (with the gifOptions background) and reports format png;
(ii) at the job level, a fresh render (no artifact hit, no dedup hit)
for a job that requested GIF but whose animated frames all fail to load
completes `done` with format `"png"`, not `"gif"`. -/
theorem composeGif_png_fallback :
    (∀ (α : Type) (env : String → Option α) (width height : Int)
        (layers : List Layer) (options : Option GifOptions),
        maxSurvivingFrames env width height layers = 0 →
        composeGif env width height layers options =
          ComposeOut.png (composePng env width height layers (gifBackgroundHex options))) ∧
    (∀ (α : Type) (hash : NormPayload → String) (env : JobEnv α)
        (table : List (String × Except Unit String)) (p : Payload),
        env.artifactGif = false → env.artifactPng = false →
        jsMapGet table (stableHashPayload hash p) = none →
        env.writeOk = true →
        strToLower (jsStrOr p.format "") = "gif" →
        maxSurvivingFrames env.fetch (payloadWidth p) (payloadHeight p)
          (resolveLayers (p.layers.getD [])) = 0 →
        (runRenderTask hash env table p).writes =
          [RegWrite.setDone (outUrl (stableHashPayload hash p) "png") "png"]) := by
  constructor
  · intro α env width height layers options h0
    exact composeGif_noframes env width height layers options h0
  · intro α hash env table p hg hp hded hw hfmt hN
    have hwg : wantsGif p = true := by
      unfold wantsGif
      rw [hfmt]
      simp
    have hfb := composeGif_noframes env.fetch (payloadWidth p) (payloadHeight p)
      (resolveLayers (p.layers.getD [])) p.gifOptions hN
    simp only [runRenderTask, hg, hp, hded, hw, hwg, hfb, Bool.false_eq_true,
      if_false, Bool.true_and, if_true]
    cases hhf : (resolveLayers (p.layers.getD [])).any
        (fun l => decide (l.type = some "pet_gif_frames")) with
    | false =>
      simp only [hhf, Bool.false_eq_true, if_false]
      rw [urlFormat_outUrl_png]
    | true =>
      simp only [hhf, if_true]
      rw [urlFormat_outUrl_png]

/-- Witness for C3: both parts applied at concrete inputs (an animated
layer whose two frames both fail to fetch; a GIF-requesting job). -/
theorem composeGif_png_fallback_witness :
    maxSurvivingFrames envNone 3 3 [petBrokenW] = 0 ∧
    composeGif envNone 3 3 [petBrokenW] none =
      ComposeOut.png (composePng envNone 3 3 [petBrokenW] (gifBackgroundHex none)) ∧
    (runRenderTask hash0 envJobC3 [] pC3).writes =
      [RegWrite.setDone (outUrl (stableHashPayload hash0 pC3) "png") "png"] :=
  ⟨by decide,
   composeGif_png_fallback.1 Nat envNone 3 3 [petBrokenW] none (by decide),
   composeGif_png_fallback.2 Nat hash0 envJobC3 [] pC3 rfl rfl (by decide) rfl
     (by decide) (by decide)⟩

/-- C4 counterexample: a payload whose `guild` is present but the empty
string satisfies the claim's acceptance condition (nothing is missing, all
limits hold) yet the code rejects it with 400 `Invalid payload`: JS
truthiness (`!payload.guild`) also rejects present-but-empty strings. -/
theorem submit_validation_claim_cex :
    ¬ ((validatePayload pC4 = none) ↔ submitAcceptsC4 pC4) := by decide

/-- C4 (amended): `POST /jobs` returns 400 iff the payload violates a
rule, where "missing" is strengthened to "missing or empty": guild or
user absent or `""`, layers absent, width or height above 1024, more than
50 layers, or an animated layer with more than 120 frames; every other
payload is accepted. -/
theorem submit_validation_iff (p : Payload) :
    validatePayload p = none ↔
      (p.guild ≠ none ∧ p.guild ≠ some "" ∧ p.user ≠ none ∧ p.user ≠ some "" ∧
       p.layers ≠ none ∧ payloadWidth p ≤ MAX_WIDTH ∧
       payloadHeight p ≤ MAX_HEIGHT ∧
       (p.layers.getD []).length ≤ MAX_LAYERS ∧
       frameCountEstimate (p.layers.getD []) ≤ MAX_FRAMES) := by
  unfold validatePayload
  constructor
  · intro hacc
    by_cases h1 : jsFalsyStr p.guild = true ∨ jsFalsyStr p.user = true ∨ p.layers = none
    · rw [if_pos h1] at hacc
      exact absurd hacc (by simp)
    · rw [if_neg h1] at hacc
      by_cases h2 : payloadWidth p > MAX_WIDTH ∨ payloadHeight p > MAX_HEIGHT
      · rw [if_pos h2] at hacc
        exact absurd hacc (by simp)
      · rw [if_neg h2] at hacc
        by_cases h3 : (p.layers.getD []).length > MAX_LAYERS
        · rw [if_pos h3] at hacc
          exact absurd hacc (by simp)
        · rw [if_neg h3] at hacc
          by_cases h4 : frameCountEstimate (p.layers.getD []) > MAX_FRAMES
          · rw [if_pos h4] at hacc
            exact absurd hacc (by simp)
          · push_neg at h1 h2 h3 h4
            obtain ⟨hg, hu, hl⟩ := h1
            simp only [ne_eq, Bool.not_eq_true] at hg hu
            rw [jsFalsy_false_iff] at hg hu
            exact ⟨hg.1, hg.2, hu.1, hu.2, hl, h2.1, h2.2, h3, h4⟩
  · intro hr
    obtain ⟨hg1, hg2, hu1, hu2, hl, hwd, hht, hlay, hfr⟩ := hr
    have hc1 : ¬ (jsFalsyStr p.guild = true ∨ jsFalsyStr p.user = true ∨
        p.layers = none) := by
      simp only [jsFalsy_true_iff]
      push_neg
      exact ⟨⟨hg1, hg2⟩, ⟨hu1, hu2⟩, hl⟩
    have hc2 : ¬ (payloadWidth p > MAX_WIDTH ∨ payloadHeight p > MAX_HEIGHT) := by
      push_neg
      exact ⟨hwd, hht⟩
    have hc3 : ¬ ((p.layers.getD []).length > MAX_LAYERS) := by omega
    have hc4 : ¬ (frameCountEstimate (p.layers.getD []) > MAX_FRAMES) := by omega
    rw [if_neg hc1, if_neg hc2, if_neg hc3, if_neg hc4]

/-- C6 (code bug): when the fresh render's promise rejects (here: the
artifact write fails), the task takes the catch path
(src/server.js:511-514) and the `inFlightByKey.delete` at line 508 never
runs — the in-flight table still holds the entry for the fingerprint
after the render has completed, where the spec requires a cleanup on
completion whether the promise resolves or rejects.  For contrast, the
successful render (same payload, working write) does remove its entry. -/
theorem inflight_entry_left_on_failure :
    (runRenderTask hash0 envC6 [] pC6).writes = [RegWrite.setError "EWRITE"] ∧
    jsMapGet (runRenderTask hash0 envC6 [] pC6).table
      (stableHashPayload hash0 pC6) = some (Except.error ()) ∧
    (runRenderTask hash0 envJobC3 [] pC6).table = [] := by decide

/-- C9: for every accepted job, under every environment and in-flight
table, the registry writes are exactly the initial pending insert
followed by one terminal write — the status trace is
`[pending, done]` or `[pending, error]`; no write follows a terminal
status, so `done`/`error` are stable (polling, `GET /jobs/:id`, only
reads the registry). -/
theorem job_status_lifecycle (α : Type) (hash : NormPayload → String)
    (env : JobEnv α) (table : List (String × Except Unit String)) (p : Payload) :
    (submitWrites hash env table p).map statusOfWrite =
        [JobStatus.pending, JobStatus.done] ∨
    (submitWrites hash env table p).map statusOfWrite =
        [JobStatus.pending, JobStatus.error] := by
  rcases runRenderTask_writes hash env table p with ⟨u, f, hw⟩ | ⟨m, hw⟩
  · left
    unfold submitWrites
    rw [hw]
    rfl
  · right
    unfold submitWrites
    rw [hw]
    rfl

/-- C8 counterexample: with `max = 0`, `set` on an empty cache finds no
"oldest" key to evict (`keys().next().value` is `undefined`, whose delete
is a no-op) and then inserts, leaving 1 entry — the bound `size ≤ max` is
not preserved by every `SimpleCache` operation as the claim states. -/
theorem simpleCache_bound_cex :
    cacheC8.map.length ≤ cacheC8.max ∧
    ¬ ((cacheC8.set "k" (5 : Nat) 0 0).map.length ≤ cacheC8.max) := by decide

/-- Witness for C8 (amended): a full one-entry cache stays within its
bound on `set` (evicting the old key), and an expired entry is deleted and
missed on `get`. -/
theorem simpleCache_ops_witness :
    (cacheC8w.set "new" (2 : Nat) 1000 100).map.length ≤ cacheC8w.max ∧
    ((cacheC8w.get "old" 100).1 = none ∧
      jsMapGet ((cacheC8w.get "old" 100).2).map "old" = none) ∧
    jsMapGet ((cacheC8w.set "new" (2 : Nat) 1000 100)).map "old" = none := by
  refine ⟨?_, ?_, ?_⟩
  · exact (@simpleCache_ops Nat).1 cacheC8w "new" 2 1000 100 (by decide) (by decide)
  · exact (@simpleCache_ops Nat).2.2.1 cacheC8w "old" 100
      { value := 1, expiresAt := 50 } (by decide) (by decide) (by decide)
  · exact (@simpleCache_ops Nat).2.2.2 cacheC8w
      ("old", { value := 1, expiresAt := 50 }) [] "new" 2 1000 100
      (by decide) (by decide) (by decide)

end RenderService
